import Mathlib

/-!
Shallow embedding of `include/counters/bench.h` from lemire/counters.

The benchmarking core is pure control flow around an external sampling
collaborator (`event_collector` / `event_count` / `event_aggregate`, declared
in `event_counter.h`, which is not part of the sources here).  We model that
collaborator from the spec: a measurement window is identified by its index in
the global sequence of `start()`/`end()` pairs, and the environment (the
`Sampler`) decides which `Sample` each window reports, as a function of the
window index and of the number of invocations of the target callable that
happened inside the window.

C++ `while`/`for` loops whose bound is re-evaluated live are embedded as
structural recursion on an explicit fuel argument; exhausting the fuel yields
the distinguished result `CRes.spin` (which would indicate divergence), while
a thrown `std::runtime_error` is `CRes.thrown`.  At every call site the fuel
is an upper bound on the number of iterations the loop can perform from any
state, so `spin` is unreachable there; the theorems below that evaluate the
loops to `CRes.ok` results make this explicit.
-/

namespace Counters

/-- Modelled from the spec: `event_count` (a Sample) from the missing
`event_counter.h` — one raw measurement of a window: elapsed nanoseconds plus
a hardware counter (retired instructions).  Metrics are rationals, standing in
for the C++ floating-point values. -/
structure Sample where
  elapsed_ns : Rat
  instructions : Rat
deriving DecidableEq

/-- Modelled from the spec: the sampling collaborator (`event_collector` from
the missing `event_counter.h`).  A deterministic environment: given the index
of the measurement window (how many `start()`/`end()` pairs completed before
it) and the number of invocations of the callable performed inside the
window, it reports the window's Sample.  The collector state threaded through
the functions below is just the window counter. -/
def Sampler : Type := Nat → Nat → Sample

/-- Modelled from the spec: `event_aggregate` from the missing
`event_counter.h`.  The spec (§3) says an Aggregate accumulates a sequence of
Samples (sum, and optionally min/max/count of each metric) plus a recorded
`inner_count`.  We keep the folded sequence itself and expose the accumulated
statistics as accessors; the rescale operation divides every metric of every
folded sample, which divides every derived sum/min/max alike. -/
structure event_aggregate where
  samples : List Sample := []
  inner_count : Nat := 1
deriving DecidableEq

/-- Folding one Sample into an Aggregate (`operator<<` of `event_aggregate`). -/
def event_aggregate.push (agg : event_aggregate) (s : Sample) : event_aggregate :=
  { agg with samples := agg.samples ++ [s] }

/-- Accumulated elapsed time over all folded Samples
(`event_aggregate::total_elapsed_ns`). -/
def event_aggregate.total_elapsed_ns (agg : event_aggregate) : Rat :=
  (agg.samples.map Sample.elapsed_ns).sum

/-- Accumulated instruction count over all folded Samples. -/
def event_aggregate.total_instructions (agg : event_aggregate) : Rat :=
  (agg.samples.map Sample.instructions).sum

/-- Number of folded Samples (`event_aggregate::iteration_count`). -/
def event_aggregate.iteration_count (agg : event_aggregate) : Nat :=
  agg.samples.length

/-- Per-sample (after normalization: per-call) elapsed time: the mean over
folded Samples (`event_aggregate::elapsed_ns`). -/
def event_aggregate.elapsed_ns (agg : event_aggregate) : Rat :=
  agg.total_elapsed_ns / (agg.iteration_count : Rat)

/-- Dividing one Sample's metrics by a divisor. -/
def Sample.div (s : Sample) (d : Nat) : Sample :=
  ⟨s.elapsed_ns / (d : Rat), s.instructions / (d : Rat)⟩

/-- Rescale of the Aggregate (`event_aggregate::operator/=`): divide every
accumulated metric by the divisor. -/
def event_aggregate.div (agg : event_aggregate) (d : Nat) : event_aggregate :=
  { agg with samples := agg.samples.map (Sample.div · d) }

/-- `call_ntimes<1>`: the `M == 1` branch of the template — one invocation. -/
def call_ntimes_1 {σ : Type} (func : σ → σ) (s : σ) : σ := func s

/-- `call_ntimes<10>`: the `M == 10` branch — ten explicit invocations. -/
def call_ntimes_10 {σ : Type} (func : σ → σ) (s : σ) : σ :=
  func (func (func (func (func (func (func (func (func (func s)))))))))

/-- `call_ntimes<100>`: ten iterations of `call_ntimes<10>`. -/
def call_ntimes_100 {σ : Type} (func : σ → σ) (s : σ) : σ :=
  (call_ntimes_10 func)^[10] s

/-- `call_ntimes<1000>`: ten iterations of `call_ntimes<100>` (the source has
this `if constexpr` block twice; the second copy is dead code). -/
def call_ntimes_1000 {σ : Type} (func : σ → σ) (s : σ) : σ :=
  (call_ntimes_100 func)^[10] s

/-- `call_ntimes<10000>`: ten iterations of `call_ntimes<1000>`. -/
def call_ntimes_10000 {σ : Type} (func : σ → σ) (s : σ) : σ :=
  (call_ntimes_1000 func)^[10] s

/-- `call_ntimes<M>`: the compile-time dispatcher.  The callable is a state
transformer `σ → σ`; the trailing `throw std::runtime_error` for an `M`
outside the supported set is `none`. -/
def call_ntimes {σ : Type} (M : Nat) (func : σ → σ) (s : σ) : Option σ :=
  if M = 1 then some (call_ntimes_1 func s)
  else if M = 10 then some (call_ntimes_10 func s)
  else if M = 100 then some (call_ntimes_100 func s)
  else if M = 1000 then some (call_ntimes_1000 func s)
  else if M = 10000 then some (call_ntimes_10000 func s)
  else none

/-- `call_ntimes_runtime`: the runtime `switch` dispatcher.  Note the source's
`case 10000:` dispatches to `call_ntimes<1000>`, and the `default:` case
throws. -/
def call_ntimes_runtime {σ : Type} (M : Nat) (func : σ → σ) (s : σ) : Option σ :=
  if M = 1 then call_ntimes 1 func s
  else if M = 10 then call_ntimes 10 func s
  else if M = 100 then call_ntimes 100 func s
  else if M = 1000 then call_ntimes 1000 func s
  else if M = 10000 then call_ntimes 1000 func s
  else none

/-- The number of invocations of the callable performed by `call_ntimes<M>`
(counted by running it on the successor function); `none` means it throws. -/
def ntimesCalls (M : Nat) : Option Nat := call_ntimes M Nat.succ 0

/-- The number of invocations performed by `call_ntimes_runtime` with
multiplier `M`; `none` means it throws. -/
def runtimeCalls (M : Nat) : Option Nat := call_ntimes_runtime M Nat.succ 0

/-- Outcome of a benchmarking computation: a normal result, a thrown
`std::runtime_error`, or fuel exhaustion (`spin`, unreachable at the actual
call sites). -/
inductive CRes (α : Type) where
  | ok : α → CRes α
  | thrown : CRes α
  | spin : CRes α
deriving DecidableEq

/-- The warm-up loop of `bench_compute_repeat_impl`: `for (i = 0; i < N; i++)`
with `N` re-evaluated live.  One Sample per iteration is folded into the
warm-up Aggregate; when the iteration completing the current `N`-th pass
leaves the cumulative elapsed time below `min_time_ns` and `N < max_repeat`,
`N` is multiplied by 10 and the loop keeps going.  Arguments after the fixed
parameters: fuel, `N`, `i`, window counter `w`, warm-up aggregate. -/
def warm_loop (M : Nat) (sampler : Sampler) (min_time_ns max_repeat : Nat) :
    Nat → Nat → Nat → Nat → event_aggregate → CRes (Nat × Nat)
  | 0, _, _, _, _ => .spin
  | fuel + 1, N, i, w, agg =>
    if i < N then
      match ntimesCalls M with
      | none => .thrown
      | some k =>
        let agg2 := agg.push (sampler w k)
        let N2 :=
          if i + 1 = N ∧ agg2.total_elapsed_ns < (min_time_ns : Rat) ∧ N < max_repeat then
            N * 10
          else N
        warm_loop M sampler min_time_ns max_repeat fuel N2 (i + 1) (w + 1) agg2
    else .ok (N, w)

/-- `bench_compute_repeat_impl<M>`: clamp `min_repeat == 0` to 1, run the
warm-up loop, return the final outer count `N` (paired with the collector's
window counter).  The fuel `max N (10 * max_repeat) + 1` strictly exceeds the
number of iterations the loop can perform: the final `N` is either the
initial one or a value `10 * N0` reached only when `N0 < max_repeat`. -/
def bench_compute_repeat_impl (M : Nat) (sampler : Sampler) (w : Nat)
    (min_repeat min_time_ns max_repeat : Nat) : CRes (Nat × Nat) :=
  let N := if min_repeat = 0 then 1 else min_repeat
  warm_loop M sampler min_time_ns max_repeat (Nat.max N (10 * max_repeat) + 1) N 0 w {}

/-- The measurement loop of `bench_impl`: fold exactly `n` fresh Samples
(windows `w, w+1, …`) into the Aggregate. -/
def measure_loop (M : Nat) (sampler : Sampler) :
    Nat → Nat → event_aggregate → CRes (event_aggregate × Nat)
  | 0, w, agg => .ok (agg, w)
  | n + 1, w, agg =>
    match ntimesCalls M with
    | none => .thrown
    | some k => measure_loop M sampler n (w + 1) (agg.push (sampler w k))

/-- `bench_impl<M>`: compute the outer repeat count `N` (warm-up), then run
exactly `N` measurement iterations into a new, empty Aggregate, then rescale
by `M` and record `inner_count = M`. -/
def bench_impl (M : Nat) (sampler : Sampler) (w : Nat)
    (min_repeat min_time_ns max_repeat : Nat) : CRes (event_aggregate × Nat) :=
  match bench_compute_repeat_impl M sampler w min_repeat min_time_ns max_repeat with
  | .spin => .spin
  | .thrown => .thrown
  | .ok (N, w1) =>
    match measure_loop M sampler N w1 {} with
    | .spin => .spin
    | .thrown => .thrown
    | .ok (agg, w2) => .ok ({ agg.div M with inner_count := M }, w2)

/-- The inner calibration loop of `bench`:
`while (M < 10000) { probe M; if elapsed >= 2000 break; M *= 10; if (M >= 10000) { M = 10000; break; } }`.
Each probe runs `call_ntimes_runtime(fn, M)` inside one measurement window.
From any state the loop performs at most four probes (a probe recurses only
when `runtimeCalls M` succeeds and `10 * M < 10000`, so only from
`M ∈ {1, 10, 100}`), hence fuel 5 at the call site is never exhausted. -/
def calib_loop (sampler : Sampler) : Nat → Nat → Nat → CRes (Nat × Nat)
  | 0, _, _ => .spin
  | fuel + 1, M, w =>
    if M < 10000 then
      match runtimeCalls M with
      | none => .thrown
      | some k =>
        if (2000 : Rat) ≤ (sampler w k).elapsed_ns then .ok (M, w + 1)
        else if 10000 ≤ M * 10 then .ok (10000, w + 1)
        else calib_loop sampler fuel (M * 10) (w + 1)
    else .ok (M, w)

/-- `bench`: inner calibration starting at `M = 1` (with
`min_time_per_inner_ns = 2000` and `max_inner_M = 10000` as fixed internal
constants), then the `switch (M)` dispatching to the compile-time specialized
`bench_impl<M>`; its `default:` branch throws `"unreachable"`. -/
def bench (sampler : Sampler) (w : Nat)
    (min_repeat min_time_ns max_repeat : Nat) : CRes (event_aggregate × Nat) :=
  match calib_loop sampler 5 1 w with
  | .spin => .spin
  | .thrown => .thrown
  | .ok (M, w1) =>
    if M = 1 then bench_impl 1 sampler w1 min_repeat min_time_ns max_repeat
    else if M = 10 then bench_impl 10 sampler w1 min_repeat min_time_ns max_repeat
    else if M = 100 then bench_impl 100 sampler w1 min_repeat min_time_ns max_repeat
    else if M = 1000 then bench_impl 1000 sampler w1 min_repeat min_time_ns max_repeat
    else if M = 10000 then bench_impl 10000 sampler w1 min_repeat min_time_ns max_repeat
    else .thrown

/-- `struct bench_parameter`: the caller-supplied configuration record, with
exactly the three fields and defaults of the source. -/
structure bench_parameter where
  min_repeat : Nat := 10
  min_time_ns : Nat := 400000000
  max_repeat : Nat := 1000000
deriving DecidableEq

/-- The `bench(function, params)` overload: forwards the three recorded
options to `bench`. -/
def bench_with_params (sampler : Sampler) (w : Nat) (p : bench_parameter) :
    CRes (event_aggregate × Nat) :=
  bench sampler w p.min_repeat p.min_time_ns p.max_repeat

/-- A sampler that reports 0 ns and 0 instructions for every window
(degenerate counters). -/
def sampler0 : Sampler := fun _ _ => ⟨0, 0⟩

/-- A sampler that reports 50 ns per single invocation (spec §8, Scenario A). -/
def samplerA : Sampler := fun _ k => ⟨50 * (k : Rat), 0⟩

/-- A sampler that reports 1999 ns for every window: just below the fixed
2000 ns inner-sample floor. -/
def sampler1999 : Sampler := fun _ _ => ⟨1999, 0⟩

/-- A sampler that reports exactly 2000 ns for every window: at the fixed
inner-sample floor. -/
def sampler2000 : Sampler := fun _ _ => ⟨2000, 0⟩

/-! ### Supporting lemmas: invocation counts of the dispatcher paths -/

lemma call_ntimes_10_eq {σ : Type} (f : σ → σ) : call_ntimes_10 f = f^[10] := by
  funext s; rfl

lemma call_ntimes_100_eq {σ : Type} (f : σ → σ) : call_ntimes_100 f = f^[100] := by
  funext s
  show (call_ntimes_10 f)^[10] s = f^[100] s
  rw [call_ntimes_10_eq, ← Function.iterate_mul]

lemma call_ntimes_1000_eq {σ : Type} (f : σ → σ) : call_ntimes_1000 f = f^[1000] := by
  funext s
  show (call_ntimes_100 f)^[10] s = f^[1000] s
  rw [call_ntimes_100_eq, ← Function.iterate_mul]

lemma call_ntimes_10000_eq {σ : Type} (f : σ → σ) : call_ntimes_10000 f = f^[10000] := by
  funext s
  show (call_ntimes_1000 f)^[10] s = f^[10000] s
  rw [call_ntimes_1000_eq, ← Function.iterate_mul]

lemma ntimesCalls_1 : ntimesCalls 1 = some 1 := rfl

lemma ntimesCalls_10 : ntimesCalls 10 = some 10 := by
  simp only [ntimesCalls, call_ntimes]
  norm_num [call_ntimes_10_eq, Nat.succ_iterate]

lemma ntimesCalls_100 : ntimesCalls 100 = some 100 := by
  simp only [ntimesCalls, call_ntimes]
  norm_num [call_ntimes_100_eq, Nat.succ_iterate]

lemma ntimesCalls_1000 : ntimesCalls 1000 = some 1000 := by
  simp only [ntimesCalls, call_ntimes]
  norm_num [call_ntimes_1000_eq, Nat.succ_iterate]

lemma ntimesCalls_10000 : ntimesCalls 10000 = some 10000 := by
  simp only [ntimesCalls, call_ntimes]
  norm_num [call_ntimes_10000_eq, Nat.succ_iterate]

lemma ntimesCalls_of_mem (M : Nat)
    (hM : M = 1 ∨ M = 10 ∨ M = 100 ∨ M = 1000 ∨ M = 10000) :
    ntimesCalls M = some M := by
  rcases hM with rfl | rfl | rfl | rfl | rfl
  · exact ntimesCalls_1
  · exact ntimesCalls_10
  · exact ntimesCalls_100
  · exact ntimesCalls_1000
  · exact ntimesCalls_10000

lemma ntimesCalls_of_not_mem (M : Nat)
    (hM : ¬(M = 1 ∨ M = 10 ∨ M = 100 ∨ M = 1000 ∨ M = 10000)) :
    ntimesCalls M = none := by
  push_neg at hM
  simp only [ntimesCalls, call_ntimes]
  simp [hM.1, hM.2.1, hM.2.2.1, hM.2.2.2.1, hM.2.2.2.2]

lemma runtimeCalls_1 : runtimeCalls 1 = some 1 := rfl

lemma runtimeCalls_10 : runtimeCalls 10 = some 10 := by
  have h := ntimesCalls_10
  simp only [ntimesCalls] at h
  simp only [runtimeCalls, call_ntimes_runtime]
  norm_num [h]

lemma runtimeCalls_100 : runtimeCalls 100 = some 100 := by
  have h := ntimesCalls_100
  simp only [ntimesCalls] at h
  simp only [runtimeCalls, call_ntimes_runtime]
  norm_num [h]

lemma runtimeCalls_1000 : runtimeCalls 1000 = some 1000 := by
  have h := ntimesCalls_1000
  simp only [ntimesCalls] at h
  simp only [runtimeCalls, call_ntimes_runtime]
  norm_num [h]

lemma runtimeCalls_10000 : runtimeCalls 10000 = some 1000 := by
  have h := ntimesCalls_1000
  simp only [ntimesCalls] at h
  simp only [runtimeCalls, call_ntimes_runtime]
  norm_num [h]

lemma runtimeCalls_of_not_mem (M : Nat)
    (hM : ¬(M = 1 ∨ M = 10 ∨ M = 100 ∨ M = 1000 ∨ M = 10000)) :
    runtimeCalls M = none := by
  push_neg at hM
  simp only [runtimeCalls, call_ntimes_runtime]
  simp [hM.1, hM.2.1, hM.2.2.1, hM.2.2.2.1, hM.2.2.2.2]

/-- `call_ntimes<M>` applied to any callable is the callable iterated
`ntimesCalls M` times: the invocation count is independent of the callable,
which justifies feeding the count to the `Sampler`. -/
lemma call_ntimes_count {σ : Type} (M : Nat) (f : σ → σ) (x : σ) :
    call_ntimes M f x = (ntimesCalls M).map fun k => f^[k] x := by
  by_cases hM : M = 1 ∨ M = 10 ∨ M = 100 ∨ M = 1000 ∨ M = 10000
  · rcases hM with rfl | rfl | rfl | rfl | rfl
    · rw [ntimesCalls_1]; rfl
    · rw [ntimesCalls_10]
      show some (call_ntimes_10 f x) = _
      rw [call_ntimes_10_eq]; rfl
    · rw [ntimesCalls_100]
      show some (call_ntimes_100 f x) = _
      rw [call_ntimes_100_eq]; rfl
    · rw [ntimesCalls_1000]
      show some (call_ntimes_1000 f x) = _
      rw [call_ntimes_1000_eq]; rfl
    · rw [ntimesCalls_10000]
      show some (call_ntimes_10000 f x) = _
      rw [call_ntimes_10000_eq]; rfl
  · rw [ntimesCalls_of_not_mem M hM]
    push_neg at hM
    simp [call_ntimes, hM.1, hM.2.1, hM.2.2.1, hM.2.2.2.1, hM.2.2.2.2]

/-- `call_ntimes_runtime` applied to any callable is the callable iterated
`runtimeCalls M` times. -/
lemma call_ntimes_runtime_count {σ : Type} (M : Nat) (f : σ → σ) (x : σ) :
    call_ntimes_runtime M f x = (runtimeCalls M).map fun k => f^[k] x := by
  by_cases hM : M = 1 ∨ M = 10 ∨ M = 100 ∨ M = 1000 ∨ M = 10000
  · rcases hM with rfl | rfl | rfl | rfl | rfl
    · rw [runtimeCalls_1]; rfl
    · rw [runtimeCalls_10]
      show call_ntimes 10 f x = _
      rw [call_ntimes_count, ntimesCalls_10]
    · rw [runtimeCalls_100]
      show call_ntimes 100 f x = _
      rw [call_ntimes_count, ntimesCalls_100]
    · rw [runtimeCalls_1000]
      show call_ntimes 1000 f x = _
      rw [call_ntimes_count, ntimesCalls_1000]
    · rw [runtimeCalls_10000]
      show call_ntimes 1000 f x = _
      rw [call_ntimes_count, ntimesCalls_1000]
  · rw [runtimeCalls_of_not_mem M hM]
    push_neg at hM
    simp [call_ntimes_runtime, call_ntimes, hM.1, hM.2.1, hM.2.2.1, hM.2.2.2.1, hM.2.2.2.2]

/-! ### Supporting lemmas: the calibration, warm-up and measurement loops -/

set_option maxRecDepth 8000 in
/-- Full symbolic unfolding of the calibration loop from `M = 1`: the four
probes cover `M = 1, 10, 100, 1000` and the cap `10000` is taken when all
four fail the 2000 ns floor. -/
lemma calib_from_one (sampler : Sampler) (w : Nat) :
    calib_loop sampler 5 1 w =
      if (2000 : Rat) ≤ (sampler w 1).elapsed_ns then .ok (1, w + 1)
      else if (2000 : Rat) ≤ (sampler (w + 1) 10).elapsed_ns then .ok (10, w + 2)
      else if (2000 : Rat) ≤ (sampler (w + 2) 100).elapsed_ns then .ok (100, w + 3)
      else if (2000 : Rat) ≤ (sampler (w + 3) 1000).elapsed_ns then .ok (1000, w + 4)
      else .ok (10000, w + 4) := rfl

/-- Warm-up loop invariant: on a normal exit the final `N` never went below
the entry `N`, and the window counter advanced by exactly the number of
iterations performed (`N2 - i`). -/
lemma warm_loop_ok_inv (M : Nat) (s : Sampler) (t r : Nat) :
    ∀ fuel N i w agg N2 w2, warm_loop M s t r fuel N i w agg = .ok (N2, w2) →
      N ≤ N2 ∧ (i ≤ N → w2 + i = w + N2) := by
  intro fuel
  induction fuel with
  | zero => intro N i w agg N2 w2 h; simp [warm_loop] at h
  | succ fuel ih =>
    intro N i w agg N2 w2 h
    rw [warm_loop] at h
    by_cases hiN : i < N
    · rw [if_pos hiN] at h
      rcases hnt : ntimesCalls M with _ | k
      · rw [hnt] at h; simp at h
      · rw [hnt] at h
        simp only at h
        generalize hQ :
          (if i + 1 = N ∧ (agg.push (s w k)).total_elapsed_ns < (t : Rat) ∧ N < r then N * 10
            else N) = Q at h
        have hNQ : N ≤ Q := by rw [← hQ]; split <;> omega
        obtain ⟨h1, h2⟩ := ih _ _ _ _ _ _ h
        refine ⟨le_trans hNQ h1, fun hile => ?_⟩
        have h3 := h2 (by omega)
        omega
    · rw [if_neg hiN] at h
      simp only [CRes.ok.injEq, Prod.mk.injEq] at h
      obtain ⟨rfl, rfl⟩ := h
      exact ⟨le_refl _, fun hile => by omega⟩

/-- The measurement loop folds exactly the Samples of windows
`w, w + 1, …, w + n - 1` (in order) onto the aggregate it is given. -/
lemma measure_loop_eq (M : Nat) (s : Sampler) (k : Nat) (hk : ntimesCalls M = some k) :
    ∀ n w agg, measure_loop M s n w agg =
      .ok ({ samples := agg.samples ++ (List.range' w n).map (fun j => s j k),
             inner_count := agg.inner_count }, w + n) := by
  intro n
  induction n with
  | zero => intro w agg; simp [measure_loop]
  | succ n ih =>
    intro w agg
    rw [measure_loop, hk]
    simp only
    rw [ih]
    simp [event_aggregate.push, List.range', List.append_assoc]
    omega

/-! ### Claim theorems -/

/-- C1: the claim states that for every supported multiplier
`M ∈ {1, 10, 100, 1000, 10000}` the dispatcher invokes the callable exactly
`M` times.  This fails for `call_ntimes_runtime` at `M = 10000`: its
`case 10000:` dispatches to `call_ntimes<1000>`, so the callable (here
`Nat.succ`, which counts its own invocations) runs only 1000 times, while the
compile-time `call_ntimes<10000>` itself correctly runs it 10000 times. -/
theorem runtime_dispatch_10000_invokes_only_1000_times :
    call_ntimes_runtime 10000 Nat.succ 0 = some 1000
      ∧ call_ntimes 10000 Nat.succ 0 = some 10000 :=
  ⟨runtimeCalls_10000, ntimesCalls_10000⟩

/-- C2: the claim states that the final outer count always satisfies
`min_repeat ≤ N ≤ max_repeat`.  The lower bound and monotonicity hold (see
`warm_loop_ok_inv`), but the upper bound fails: the warm-up loop multiplies
`N` by 10 after only checking `N < max_repeat`, so with `min_repeat = 1`,
`min_time_ns = 1`, `max_repeat = 2` and a sampler reporting 0 ns the loop
returns `N = 10 > max_repeat = 2` (and runs 10 warm-up windows). -/
theorem warm_up_repeat_can_exceed_max_repeat :
    bench_compute_repeat_impl 1 sampler0 0 1 1 2 = .ok (10, 10) ∧ ¬(10 ≤ 2) := by
  constructor
  · norm_num [bench_compute_repeat_impl, warm_loop, ntimesCalls_1, event_aggregate.push,
      event_aggregate.total_elapsed_ns, sampler0]
  · decide

/-- C3: under a deterministic clock (each probe of a block containing `k`
invocations reports elapsed time `f k`), the calibration loop starting at
`M = 1` returns the smallest multiplier in `{1, 10, 100, 1000, 10000}` whose
block measures at or above the 2000 ns floor, or the cap 10000 when no
smaller multiplier does; in particular a callable whose single-call probe
already meets the floor yields `M = 1`. -/
theorem calib_loop_returns_smallest_passing_multiplier (s : Sampler) (f : Nat → Rat)
    (hf : ∀ i k, (s i k).elapsed_ns = f k) (w : Nat) :
    ∃ M w2, calib_loop s 5 1 w = .ok (M, w2)
      ∧ (M = 1 ∨ M = 10 ∨ M = 100 ∨ M = 1000 ∨ M = 10000)
      ∧ ((2000 : Rat) ≤ f M ∨ M = 10000)
      ∧ (∀ m, (m = 1 ∨ m = 10 ∨ m = 100 ∨ m = 1000 ∨ m = 10000) → m < M → f m < 2000)
      ∧ ((2000 : Rat) ≤ f 1 → M = 1) := by
  rw [calib_from_one, hf w 1, hf (w + 1) 10, hf (w + 2) 100, hf (w + 3) 1000]
  by_cases h1 : (2000 : Rat) ≤ f 1
  · refine ⟨1, w + 1, by rw [if_pos h1], by tauto, Or.inl h1, ?_, fun _ => rfl⟩
    intro m hm hlt
    rcases hm with rfl | rfl | rfl | rfl | rfl <;> omega
  · by_cases h2 : (2000 : Rat) ≤ f 10
    · refine ⟨10, w + 2, by rw [if_neg h1, if_pos h2], by tauto, Or.inl h2, ?_,
        fun hc => absurd hc h1⟩
      intro m hm hlt
      rcases hm with rfl | rfl | rfl | rfl | rfl <;> first | omega | exact not_le.mp h1
    · by_cases h3 : (2000 : Rat) ≤ f 100
      · refine ⟨100, w + 3, by rw [if_neg h1, if_neg h2, if_pos h3], by tauto, Or.inl h3, ?_,
          fun hc => absurd hc h1⟩
        intro m hm hlt
        rcases hm with rfl | rfl | rfl | rfl | rfl <;>
          first | omega | exact not_le.mp h1 | exact not_le.mp h2
      · by_cases h4 : (2000 : Rat) ≤ f 1000
        · refine ⟨1000, w + 4, by rw [if_neg h1, if_neg h2, if_neg h3, if_pos h4], by tauto,
            Or.inl h4, ?_, fun hc => absurd hc h1⟩
          intro m hm hlt
          rcases hm with rfl | rfl | rfl | rfl | rfl <;>
            first | omega | exact not_le.mp h1 | exact not_le.mp h2 | exact not_le.mp h3
        · refine ⟨10000, w + 4, by rw [if_neg h1, if_neg h2, if_neg h3, if_neg h4], by tauto,
            Or.inr rfl, ?_, fun hc => absurd hc h1⟩
          intro m hm hlt
          rcases hm with rfl | rfl | rfl | rfl | rfl <;>
            first | omega | exact not_le.mp h1 | exact not_le.mp h2 | exact not_le.mp h3 |
              exact not_le.mp h4

/-- C3 witness: Scenario A of the spec — a deterministic sampler reporting
50 ns per single invocation; the probes measure 50 ns, 500 ns, 5000 ns and
calibration stops at `M = 100` after three probes. -/
theorem calib_loop_returns_smallest_passing_multiplier_witness :
    (∃ M w2, calib_loop samplerA 5 1 0 = .ok (M, w2)
      ∧ (M = 1 ∨ M = 10 ∨ M = 100 ∨ M = 1000 ∨ M = 10000)
      ∧ ((2000 : Rat) ≤ 50 * (M : Rat) ∨ M = 10000)
      ∧ (∀ m, (m = 1 ∨ m = 10 ∨ m = 100 ∨ m = 1000 ∨ m = 10000) → m < M →
          50 * (m : Rat) < 2000)
      ∧ ((2000 : Rat) ≤ 50 * ((1 : Nat) : Rat) → M = 1))
    ∧ calib_loop samplerA 5 1 0 = .ok (100, 3) := by
  constructor
  · exact calib_loop_returns_smallest_passing_multiplier samplerA
      (fun k => 50 * (k : Rat)) (fun i k => rfl) 0
  · rw [calib_from_one]
    norm_num [samplerA]

/-- C4: if the sampler reports 0 ns for every probe (degenerate counters),
the calibration loop terminates after exactly its four probes (the window
counter advances from `w` to `w + 4`) and returns the cap `M = 10000`; the
`.ok` result in particular means the fuel bound was never exhausted, i.e.
the loop cannot run forever. -/
theorem calib_loop_zero_elapsed_returns_cap (s : Sampler) (w : Nat)
    (h0 : ∀ i k, (s i k).elapsed_ns = 0) :
    calib_loop s 5 1 w = .ok (10000, w + 4) := by
  rw [calib_from_one, h0, h0, h0, h0]
  norm_num

/-- C4 witness: Scenario B of the spec, at the all-zero sampler. -/
theorem calib_loop_zero_elapsed_returns_cap_witness :
    calib_loop sampler0 5 1 0 = .ok (10000, 4) :=
  calib_loop_zero_elapsed_returns_cap sampler0 0 fun _ _ => rfl

/-- C5: whenever the warm-up phase returns `N` (having consumed exactly the
`N` windows `w, …, w + N - 1`, so `w1 = w + N`), `bench_impl` returns an
Aggregate built from exactly the `N` fresh measurement windows
`w1, …, w1 + N - 1`: its folded-sample sequence is precisely those `N`
Samples (rescaled by `M`), so its sample count is the measurement-phase `N`
and no Sample folded into the (discarded) warm-up Aggregate appears in it. -/
theorem bench_impl_measures_fresh_samples (M : Nat) (s : Sampler)
    (w p t r N w1 k : Nat)
    (hk : ntimesCalls M = some k)
    (h : bench_compute_repeat_impl M s w p t r = .ok (N, w1)) :
    w1 = w + N ∧
    bench_impl M s w p t r =
      .ok ({ samples := (List.range' w1 N).map fun j => Sample.div (s j k) M,
             inner_count := M }, w1 + N) := by
  have h2 := h
  simp only [bench_compute_repeat_impl] at h2
  obtain ⟨hN, hw⟩ := warm_loop_ok_inv _ _ _ _ _ _ _ _ _ _ _ h2
  have hw1 : w1 = w + N := by have := hw (Nat.zero_le _); omega
  refine ⟨hw1, ?_⟩
  simp only [bench_impl]
  rw [h]
  simp only
  rw [measure_loop_eq M s k hk]
  simp only
  simp [event_aggregate.div, List.map_map, Function.comp]

set_option maxRecDepth 4000 in
/-- C5 witness: with the all-zero sampler, `min_repeat = 2`, `min_time_ns = 0`
and `max_repeat = 5`, warm-up returns `N = 2` after windows 0 and 1, and the
measurement Aggregate holds exactly the Samples of fresh windows 2 and 3. -/
theorem bench_impl_measures_fresh_samples_witness :
    2 = 0 + 2 ∧
    bench_impl 1 sampler0 0 2 0 5 =
      .ok ({ samples := (List.range' 2 2).map fun j => Sample.div (sampler0 j 1) 1,
             inner_count := 1 }, 2 + 2) :=
  bench_impl_measures_fresh_samples 1 sampler0 0 2 0 5 2 2 1 ntimesCalls_1
    (by norm_num [bench_compute_repeat_impl, warm_loop, ntimesCalls_1, event_aggregate.push,
      event_aggregate.total_elapsed_ns, sampler0])

/-- C6: normalization (`aggregate /= M; aggregate.inner_count = M`) records
`inner_count = M`, keeps the sample count, and divides every accumulated
metric of the Aggregate by `M`; consequently the per-call elapsed time of the
normalized Aggregate is (sum of raw elapsed times) / (N * M), where `N` is
the number of folded raw Samples. -/
theorem normalization_divides_every_metric (agg : event_aggregate) (M : Nat) :
    ({ agg.div M with inner_count := M } : event_aggregate).inner_count = M
    ∧ ({ agg.div M with inner_count := M } : event_aggregate).iteration_count
        = agg.iteration_count
    ∧ ({ agg.div M with inner_count := M } : event_aggregate).total_elapsed_ns
        = agg.total_elapsed_ns / (M : Rat)
    ∧ ({ agg.div M with inner_count := M } : event_aggregate).total_instructions
        = agg.total_instructions / (M : Rat)
    ∧ ({ agg.div M with inner_count := M } : event_aggregate).elapsed_ns
        = agg.total_elapsed_ns / ((agg.iteration_count : Rat) * (M : Rat)) := by
  have hsum : ∀ (l : List Rat) (d : Rat), (l.map (· / d)).sum = l.sum / d := by
    intro l d
    induction l with
    | nil => simp
    | cons x xs ih => simp [ih, add_div]
  have helapsed : ({ agg.div M with inner_count := M } : event_aggregate).total_elapsed_ns
      = agg.total_elapsed_ns / (M : Rat) := by
    simp only [event_aggregate.total_elapsed_ns, event_aggregate.div, List.map_map]
    rw [show Sample.elapsed_ns ∘ (Sample.div · M) = (· / (M : Rat)) ∘ Sample.elapsed_ns from rfl,
      ← List.map_map, hsum]
  have hinstr : ({ agg.div M with inner_count := M } : event_aggregate).total_instructions
      = agg.total_instructions / (M : Rat) := by
    simp only [event_aggregate.total_instructions, event_aggregate.div, List.map_map]
    rw [show Sample.instructions ∘ (Sample.div · M) = (· / (M : Rat)) ∘ Sample.instructions
        from rfl, ← List.map_map, hsum]
  have hcount : ({ agg.div M with inner_count := M } : event_aggregate).iteration_count
      = agg.iteration_count := by
    simp [event_aggregate.iteration_count, event_aggregate.div]
  refine ⟨rfl, hcount, helapsed, hinstr, ?_⟩
  rw [event_aggregate.elapsed_ns, helapsed, hcount, div_div, mul_comm]

/-- C7: a multiplier outside `{1, 10, 100, 1000, 10000}` makes both
dispatcher paths throw immediately (`none`), and a `bench_impl` run with such
a multiplier aborts as `.thrown` on its first warm-up window — no partial
Aggregate is ever produced. -/
theorem unsupported_multiplier_throws {σ : Type} (M : Nat)
    (hM : ¬(M = 1 ∨ M = 10 ∨ M = 100 ∨ M = 1000 ∨ M = 10000))
    (func : σ → σ) (x : σ) (s : Sampler) (w p t r : Nat) :
    call_ntimes_runtime M func x = none ∧ call_ntimes M func x = none
      ∧ bench_impl M s w p t r = .thrown := by
  have hr := runtimeCalls_of_not_mem M hM
  have hn := ntimesCalls_of_not_mem M hM
  refine ⟨?_, ?_, ?_⟩
  · rw [call_ntimes_runtime_count, hr]; rfl
  · rw [call_ntimes_count, hn]; rfl
  · have hN0 : 0 < (if p = 0 then 1 else p) := by split <;> omega
    simp only [bench_impl, bench_compute_repeat_impl]
    rw [warm_loop, if_pos hN0, hn]

/-- C7 witness: the unsupported multiplier `M = 7`. -/
theorem unsupported_multiplier_throws_witness :
    call_ntimes_runtime 7 Nat.succ 0 = none ∧ call_ntimes 7 Nat.succ 0 = none
      ∧ bench_impl 7 sampler0 0 1 1 1 = .thrown :=
  unsupported_multiplier_throws 7 (by decide) Nat.succ 0 sampler0 0 1 1 1

/-- C8: `min_repeat = 0` is silently clamped — the warm-up computation
behaves exactly as with `min_repeat = 1`; and for every nonzero `min_repeat`
the warm-up loop is entered with the configuration fields exactly as given
(initial `N = min_repeat`, `min_time_ns` and `max_repeat` passed through
unmodified, with no further validation). -/
theorem min_repeat_zero_clamped_to_one :
    (∀ (M : Nat) (s : Sampler) (w t r : Nat),
        bench_compute_repeat_impl M s w 0 t r = bench_compute_repeat_impl M s w 1 t r)
    ∧ (∀ (M : Nat) (s : Sampler) (w mr t r : Nat), mr ≠ 0 →
        bench_compute_repeat_impl M s w mr t r
          = warm_loop M s t r (Nat.max mr (10 * r) + 1) mr 0 w {}) := by
  constructor
  · intro M s w t r; rfl
  · intro M s w mr t r hmr
    simp only [bench_compute_repeat_impl, if_neg hmr]

/-- C8 witness: clamping at `min_repeat = 0` and pass-through at
`min_repeat = 2`, with `min_time_ns = 3`, `max_repeat = 7`. -/
theorem min_repeat_zero_clamped_to_one_witness :
    bench_compute_repeat_impl 1 sampler0 0 0 3 7 = bench_compute_repeat_impl 1 sampler0 0 1 3 7
    ∧ bench_compute_repeat_impl 1 sampler0 0 2 3 7
        = warm_loop 1 sampler0 3 7 (Nat.max 2 (10 * 7) + 1) 2 0 0 {} :=
  ⟨min_repeat_zero_clamped_to_one.1 1 sampler0 0 3 7,
   min_repeat_zero_clamped_to_one.2 1 sampler0 0 2 3 7 (by decide)⟩

/-- C9 counterexample: the claim says the configuration record recognizes
five options, including `inner_repeat_cap` and `min_time_per_inner_sample_ns`.
In the source `bench_parameter` a record is fully determined by the three
options `min_repeat`, `min_time_ns`, `max_repeat` — the record carries no
further option that could configure the inner cap or the inner-sample
threshold. -/
theorem bench_parameter_determined_by_three_options :
    Function.Injective fun p : bench_parameter =>
      (p.min_repeat, p.min_time_ns, p.max_repeat) := by
  intro p q h
  cases p; cases q
  simpa using h

/-- C9 (amended): the configuration record recognizes exactly the three
options `min_repeat` (default 10), `min_time_ns` (default 4e8), `max_repeat`
(default 1e6), which the `bench(function, params)` overload forwards
unchanged, while the inner-repetition cap (10000) and the per-inner-sample
floor (2000 ns) are fixed internal constants of `bench`: a sampler reporting
2000 ns per window calibrates to `M = 1`, one reporting 1999 ns exhausts all
probes and is capped at `M = 10000`, independent of any record. -/
theorem bench_parameter_three_options_fixed_inner_constants :
    (({} : bench_parameter).min_repeat = 10
      ∧ ({} : bench_parameter).min_time_ns = 400000000
      ∧ ({} : bench_parameter).max_repeat = 1000000)
    ∧ (∀ p q : bench_parameter, p.min_repeat = q.min_repeat → p.min_time_ns = q.min_time_ns →
        p.max_repeat = q.max_repeat → p = q)
    ∧ (∀ (s : Sampler) (w : Nat) (p : bench_parameter),
        bench_with_params s w p = bench s w p.min_repeat p.min_time_ns p.max_repeat)
    ∧ calib_loop sampler2000 5 1 0 = .ok (1, 1)
    ∧ calib_loop sampler1999 5 1 0 = .ok (10000, 4) := by
  refine ⟨⟨rfl, rfl, rfl⟩, ?_, fun s w p => rfl, by decide, by decide⟩
  intro p q h1 h2 h3
  cases p; cases q
  simp_all

/-- C9 witness: the record built from the three defaults is the default
record. -/
theorem bench_parameter_three_options_fixed_inner_constants_witness :
    (⟨10, 400000000, 1000000⟩ : bench_parameter) = ({} : bench_parameter) :=
  bench_parameter_three_options_fixed_inner_constants.2.1 ⟨10, 400000000, 1000000⟩ {} rfl rfl rfl

/-- C10: for every sampler and configuration, the calibration loop of `bench`
returns an `M` in `{1, 10, 100, 1000, 10000}` (it starts at 1, is only ever
multiplied by 10 and is clamped at 10000), so `bench` always dispatches to
one of the five `bench_impl` instantiations and its `default:`
("unreachable") branch is never taken. -/
theorem bench_switch_default_unreachable (s : Sampler) (w p t r : Nat) :
    ∃ M w1, calib_loop s 5 1 w = .ok (M, w1)
      ∧ (M = 1 ∨ M = 10 ∨ M = 100 ∨ M = 1000 ∨ M = 10000)
      ∧ bench s w p t r = bench_impl M s w1 p t r := by
  by_cases h1 : (2000 : Rat) ≤ (s w 1).elapsed_ns
  · refine ⟨1, w + 1, by rw [calib_from_one, if_pos h1], by tauto, ?_⟩
    simp only [bench]
    rw [calib_from_one, if_pos h1]
    norm_num
  · by_cases h2 : (2000 : Rat) ≤ (s (w + 1) 10).elapsed_ns
    · refine ⟨10, w + 2, by rw [calib_from_one, if_neg h1, if_pos h2], by tauto, ?_⟩
      simp only [bench]
      rw [calib_from_one, if_neg h1, if_pos h2]
      norm_num
    · by_cases h3 : (2000 : Rat) ≤ (s (w + 2) 100).elapsed_ns
      · refine ⟨100, w + 3, by rw [calib_from_one, if_neg h1, if_neg h2, if_pos h3], by tauto, ?_⟩
        simp only [bench]
        rw [calib_from_one, if_neg h1, if_neg h2, if_pos h3]
        norm_num
      · by_cases h4 : (2000 : Rat) ≤ (s (w + 3) 1000).elapsed_ns
        · refine ⟨1000, w + 4,
            by rw [calib_from_one, if_neg h1, if_neg h2, if_neg h3, if_pos h4], by tauto, ?_⟩
          simp only [bench]
          rw [calib_from_one, if_neg h1, if_neg h2, if_neg h3, if_pos h4]
          norm_num
        · refine ⟨10000, w + 4,
            by rw [calib_from_one, if_neg h1, if_neg h2, if_neg h3, if_neg h4], by tauto, ?_⟩
          simp only [bench]
          rw [calib_from_one, if_neg h1, if_neg h2, if_neg h3, if_neg h4]
          norm_num

end Counters
